import Mathlib

/-!
Shallow embedding of the drum-inventory transition core of `src/app.py`
(tables `drums`, `grids`, `transactions`, `drum_history`; operations
`insert_drum`, `update_drum_info`, `update_drum_in`, `update_drum_out`,
`batch_out_drums`, `shift_drum_grid`, `batch_shift_drums`, the placement
flow of `qr_page`, and the order-number search of `dashboard`).
SQL rows become Lean structures, tables become association lists keyed by
their primary key, `AUTOINCREMENT` columns become explicit counters, and
`datetime.now()` becomes an explicit `now : Nat` argument.
-/

namespace DrumInv

inductive DrumStatus where
  | IN
  | OUT
  deriving DecidableEq, Repr

inductive GridStatus where
  | Available
  | Occupied
  deriving DecidableEq, Repr

inductive TxnStatus where
  | IN
  | OUT
  | SHIFT
  deriving DecidableEq, Repr

/-- One row of the `drums` table (`DrumID` is the association-list key). -/
structure DrumRow where
  OrderNo : Option String
  RA : Option String
  Quantity : Option String
  CellType : Option String
  Status : DrumStatus
  CurrentGrid : Option String
  LastUpdated : Nat
  deriving DecidableEq, Repr

/-- One row of the `transactions` table. -/
structure Txn where
  TxnID : Nat
  DrumID : String
  GridID : String
  Status : TxnStatus
  Timestamp : Nat
  deriving DecidableEq, Repr

/-- One row of the `drum_history` table. -/
structure HistRow where
  HistID : Nat
  DrumID : String
  OrderNo : Option String
  RA : Option String
  Quantity : Option String
  CellType : Option String
  Status : TxnStatus
  GridID : String
  Timestamp : Nat
  deriving DecidableEq, Repr

/-- The whole SQLite database of `inventory.db`. -/
structure DB where
  drums : List (String × DrumRow)
  grids : List (String × GridStatus)
  transactions : List Txn
  nextTxnId : Nat
  drum_history : List HistRow
  nextHistId : Nat
  deriving DecidableEq, Repr

/-- `SELECT * FROM drums WHERE DrumID = ?` (`get_drum` in app.py). -/
def get_drum (db : DB) (d : String) : Option DrumRow :=
  db.drums.lookup d

/-- `SELECT * FROM drums WHERE CurrentGrid = ? AND Status = 'IN'`
(`get_drums_by_grid` in app.py). -/
def get_drums_by_grid (db : DB) (g : String) : List (String × DrumRow) :=
  db.drums.filter (fun p => p.2.CurrentGrid == some g && p.2.Status == DrumStatus.IN)

/-- `SELECT Status FROM grids WHERE GridID = ?`. -/
def gridStatus (db : DB) (g : String) : Option GridStatus :=
  db.grids.lookup g

/-- `UPDATE grids SET Status = ? WHERE GridID = ?`. -/
def setGridStatus (grids : List (String × GridStatus)) (g : String) (s : GridStatus) :
    List (String × GridStatus) :=
  grids.map (fun p => if p.1 == g then (p.1, s) else p)

/-- `UPDATE drums SET ... WHERE DrumID = ?`. -/
def updateDrumRow (drums : List (String × DrumRow)) (d : String) (f : DrumRow → DrumRow) :
    List (String × DrumRow) :=
  drums.map (fun p => if p.1 == d then (p.1, f p.2) else p)

/-- `INSERT INTO transactions (DrumID, GridID, Status, Timestamp) VALUES (...)`;
`TxnID` is `AUTOINCREMENT`. -/
def appendTxn (db : DB) (d g : String) (s : TxnStatus) (now : Nat) : DB :=
  { db with transactions := db.transactions ++ [⟨db.nextTxnId, d, g, s, now⟩],
            nextTxnId := db.nextTxnId + 1 }

/-- `insert_drum` (app.py lines 83-87): `INSERT OR REPLACE INTO drums ...`
with `Status='OUT'`, `CurrentGrid=NULL`. -/
def insert_drum (db : DB) (d o ra ct q : String) (now : Nat) : DB :=
  let row : DrumRow := ⟨some o, some ra, some q, some ct, DrumStatus.OUT, none, now⟩
  { db with drums :=
      if db.drums.any (fun p => p.1 == d) then
        db.drums.map (fun p => if p.1 == d then (p.1, row) else p)
      else
        db.drums ++ [(d, row)] }

/-- `update_drum_info` (app.py lines 89-93): overwrite all metadata, set
`Status='OUT'`, `CurrentGrid=NULL`, refresh `LastUpdated`. -/
def update_drum_info (db : DB) (d o ra ct q : String) (now : Nat) : DB :=
  let row : DrumRow := ⟨some o, some ra, some q, some ct, DrumStatus.OUT, none, now⟩
  { db with drums := updateDrumRow db.drums d (fun _ => row) }

/-- The per-row effect of `UPDATE drums SET Status = 'IN', CurrentGrid = ?,
LastUpdated = ? WHERE DrumID = ?`. -/
def markIn (g : String) (now : Nat) (r : DrumRow) : DrumRow :=
  { r with Status := DrumStatus.IN, CurrentGrid := some g, LastUpdated := now }

/-- `update_drum_in` (app.py lines 95-101): mark the drum IN on `g`, mark
grid `g` Occupied, append one IN transaction. -/
def update_drum_in (db : DB) (d g : String) (now : Nat) : DB :=
  let db1 := { db with drums := updateDrumRow db.drums d (markIn g now) }
  let db2 := { db1 with grids := setGridStatus db1.grids g GridStatus.Occupied }
  appendTxn db2 d g TxnStatus.IN now

/-- `update_drum_out` (app.py lines 103-125).  Returns `(db, false)` and
changes nothing when the drum is absent or `CurrentGrid` is NULL.
Otherwise: append a history snapshot of the metadata, clear the drum row
(`Status='OUT'`, all metadata and `CurrentGrid` NULL), then — exactly as
the source does, only after the drum row has already been cleared — count
the IN drums still on the grid and mark the grid Available when that
count is `<= 1`, and append one OUT transaction. -/
def update_drum_out (db : DB) (d : String) (now : Nat) : DB × Bool :=
  match get_drum db d with
  | none => (db, false)
  | some r =>
    match r.CurrentGrid with
    | none => (db, false)
    | some g =>
      let h : HistRow :=
        ⟨db.nextHistId, d, r.OrderNo, r.RA, r.Quantity, r.CellType,
         TxnStatus.OUT, g, now⟩
      let db1 := { db with drum_history := db.drum_history ++ [h], nextHistId := db.nextHistId + 1 }
      let cleared : DrumRow := ⟨none, none, none, none, DrumStatus.OUT, none, now⟩
      let db2 := { db1 with drums := updateDrumRow db1.drums d (fun _ => cleared) }
      let other := get_drums_by_grid db2 g
      let db3 :=
        if other.length ≤ 1 then
          { db2 with grids := setGridStatus db2.grids g GridStatus.Available }
        else db2
      (appendTxn db3 d g TxnStatus.OUT now, true)

/-- `batch_out_drums` (app.py lines 127-130): remove every drum currently
IN on `g`, iterating over the snapshot taken before the first removal. -/
def batch_out_drums (db : DB) (g : String) (now : Nat) : DB :=
  (get_drums_by_grid db g).foldl (fun s p => (update_drum_out s p.1 now).1) db

/-- The per-row effect of `UPDATE drums SET CurrentGrid = ?, LastUpdated = ?
WHERE DrumID = ?`. -/
def moveTo (g2 : String) (now : Nat) (r : DrumRow) : DrumRow :=
  { r with CurrentGrid := some g2, LastUpdated := now }

/-- `shift_drum_grid` (app.py lines 132-147).  Returns `(db, false)` when the
drum is absent or `CurrentGrid` is NULL.  Otherwise: mark the old grid
Available when at most one IN drum (the shifted one included) is on it,
move the drum, mark the new grid Occupied, append one SHIFT transaction.
No availability check is made on the destination. -/
def shift_drum_grid (db : DB) (d g2 : String) (now : Nat) : DB × Bool :=
  match get_drum db d with
  | none => (db, false)
  | some r =>
    match r.CurrentGrid with
    | none => (db, false)
    | some g1 =>
      let other := get_drums_by_grid db g1
      let db1 :=
        if other.length ≤ 1 then
          { db with grids := setGridStatus db.grids g1 GridStatus.Available }
        else db
      let db2 := { db1 with drums := updateDrumRow db1.drums d (moveTo g2 now) }
      let db3 := { db2 with grids := setGridStatus db2.grids g2 GridStatus.Occupied }
      (appendTxn db3 d g2 TxnStatus.SHIFT now, true)

/-- `batch_shift_drums` (app.py lines 149-152). -/
def batch_shift_drums (db : DB) (g1 g2 : String) (now : Nat) : DB :=
  (get_drums_by_grid db g1).foldl (fun s p => (shift_drum_grid s p.1 g2 now).1) db

/-- The placement flow of `qr_page` (app.py lines 349-358): reject when any
field is empty; otherwise `insert_drum` for a new id or `update_drum_info`
for an existing one, then `update_drum_in`. -/
def place_drum (db : DB) (d o ra ct q g : String) (now : Nat) : DB × Bool :=
  if d == "" || o == "" || ra == "" || q == "" || ct == "" then (db, false)
  else
    let db1 :=
      match get_drum db d with
      | none => insert_drum db d o ra ct q now
      | some _ => update_drum_info db d o ra ct q now
    (update_drum_in db1 d g now, true)

/-- The fixed 3x3 grid seed `A1..C3` (app.py lines 56-59). -/
def gridIds : List String :=
  ["A1", "A2", "A3", "B1", "B2", "B3", "C1", "C2", "C3"]

/-- The database right after `create_tables`: nine Available grids, no
drums, empty audit tables, `AUTOINCREMENT` counters at 1. -/
def initDB : DB :=
  ⟨[], gridIds.map (fun g => (g, GridStatus.Available)), [], 1, [], 1⟩

/-- One completed Transition Engine operation, as invoked from the UI. -/
inductive Op where
  | place (d o ra ct q g : String)
  | remove (d : String)
  | shift (d g2 : String)
  | batchOut (g : String)
  | batchShift (g1 g2 : String)
  deriving DecidableEq, Repr

def step (db : DB) (op : Op) (now : Nat) : DB :=
  match op with
  | .place d o ra ct q g => (place_drum db d o ra ct q g now).1
  | .remove d => (update_drum_out db d now).1
  | .shift d g2 => (shift_drum_grid db d g2 now).1
  | .batchOut g => batch_out_drums db g now
  | .batchShift g1 g2 => batch_shift_drums db g1 g2 now

def runOps (db : DB) : List (Op × Nat) → DB
  | [] => db
  | (op, now) :: rest => runOps (step db op now) rest

/-- Boolean test that `small` occurs at the start of `hay`. -/
def startsWithL : List Char → List Char → Bool
  | [], _ => true
  | _ :: _, [] => false
  | a :: as, b :: bs => a == b && startsWithL as bs

/-- Boolean test that `small` occurs contiguously somewhere inside `hay`. -/
def containsL (small : List Char) : List Char → Bool
  | [] => small.isEmpty
  | b :: bs => startsWithL small (b :: bs) || containsL small bs

/-- ASCII lower-casing of one character, the case folding SQLite's `LIKE`
applies. -/
def lowerChar (c : Char) : Char :=
  if 65 ≤ c.toNat ∧ c.toNat ≤ 90 then Char.ofNat (c.toNat + 32) else c

/-- `column LIKE '%q%'` of SQLite: substring match, case-insensitive on
ASCII letters, never matching a NULL column. -/
def likeContains (q : String) (col : Option String) : Bool :=
  match col with
  | none => false
  | some s => containsL (q.toList.map lowerChar) (s.toList.map lowerChar)

/-- Outcome of the order-number search of `dashboard`: live `drums` rows
shown with `st.success`, fallback `drum_history` rows shown with the
distinguishing `st.info` marker, or the no-records message. -/
inductive SearchResult where
  | live (rows : List (String × DrumRow))
  | fromHistory (rows : List HistRow)
  | noRecords
  deriving DecidableEq, Repr

/-- The order-number search of `dashboard` (app.py lines 188-206):
`SELECT * FROM drums WHERE OrderNo LIKE '%q%'`; when that is empty,
`SELECT * FROM drum_history WHERE OrderNo LIKE '%q%'`; when that is also
empty, report no records. -/
def search_by_order (db : DB) (q : String) : SearchResult :=
  let live := db.drums.filter (fun p => likeContains q p.2.OrderNo)
  if live.isEmpty then
    let hist := db.drum_history.filter (fun h => likeContains q h.OrderNo)
    if hist.isEmpty then SearchResult.noRecords
    else SearchResult.fromHistory hist
  else SearchResult.live live

/-- Per-drum invariant of the spec: `CurrentGrid` is non-null iff
`Status = IN`, and an OUT drum has all four metadata fields cleared. -/
def drumInvariant (db : DB) : Prop :=
  ∀ p ∈ db.drums,
    (p.2.CurrentGrid ≠ none ↔ p.2.Status = DrumStatus.IN) ∧
    (p.2.Status = DrumStatus.OUT →
      p.2.OrderNo = none ∧ p.2.Quantity = none ∧ p.2.RA = none ∧ p.2.CellType = none)

/-- Multi-occupancy grid invariant of the spec: a grid is Occupied iff at
least one IN drum references it, Available iff none does. -/
def gridInvariant (db : DB) : Prop :=
  ∀ p ∈ db.grids,
    (p.2 = GridStatus.Occupied ↔ get_drums_by_grid db p.1 ≠ []) ∧
    (p.2 = GridStatus.Available ↔ get_drums_by_grid db p.1 = [])

/-- Primary-key well-formedness of the `drums` table: no duplicate
`DrumID`. -/
def keysNodup (db : DB) : Prop :=
  (db.drums.map Prod.fst).Nodup

/-- Audit-log well-formedness: the `TxnID` column is strictly increasing
down the table and bounded by the `AUTOINCREMENT` counter. -/
def txnIdsOk (db : DB) : Prop :=
  List.Pairwise (· < ·) (db.transactions.map Txn.TxnID) ∧
  ∀ t ∈ db.transactions, t.TxnID < db.nextTxnId

/-- Well-formedness bundle used in the inductive proofs: the `drums`
primary key is unique, the per-drum invariant holds and the audit-log ids
are in order. -/
def WF (db : DB) : Prop :=
  keysNodup db ∧ drumInvariant db ∧ txnIdsOk db

instance (db : DB) : Decidable (drumInvariant db) := by
  unfold drumInvariant
  infer_instance

instance (db : DB) : Decidable (gridInvariant db) := by
  unfold gridInvariant
  infer_instance

instance (db : DB) : Decidable (keysNodup db) := by
  unfold keysNodup
  infer_instance

instance (db : DB) : Decidable (txnIdsOk db) := by
  unfold txnIdsOk
  infer_instance

/-- Two drums placed on grid B2 and the first removed again. -/
def c1State : DB :=
  runOps initDB
    [(Op.place "D010" "O10" "R10" "T10" "Q10" "B2", 1),
     (Op.place "D011" "O11" "R11" "T11" "Q11" "B2", 2),
     (Op.remove "D010", 3)]

/-- Drums D002 and D003 both placed on grid C1. -/
def c2Placed : DB :=
  runOps initDB
    [(Op.place "D002" "O2" "R2" "T2" "Q2" "C1", 1),
     (Op.place "D003" "O3" "R3" "T3" "Q3" "C1", 2)]

/-- The state after the first of the two removals of `BatchRemove("C1")`. -/
def c2AfterFirst : DB :=
  (update_drum_out c2Placed "D002" 3).1

/-- The state after `BatchRemove("C1")` completes. -/
def c2Final : DB :=
  batch_out_drums c2Placed "C1" 3

/-- A single drum placed alone on grid A1. -/
def c5State : DB :=
  runOps initDB [(Op.place "D001" "O1" "R1" "TA" "10" "A1", 1)]

/-- The state after shifting that drum to its own current grid A1. -/
def c5Shifted : DB :=
  (shift_drum_grid c5State "D001" "A1" 3).1

/-- Drum D001 on A1 and drum D004 on B2, so B2 is Occupied. -/
def c6State : DB :=
  runOps initDB
    [(Op.place "D001" "O1" "R1" "TA" "10" "A1", 1),
     (Op.place "D004" "O4" "R4" "TB" "5" "B2", 2)]

/-- A database holding one already-OUT drum D009 and the nine seed grids. -/
def c4Db : DB :=
  ⟨[("D009", ⟨none, none, none, none, DrumStatus.OUT, none, 0⟩)],
   gridIds.map (fun g => (g, GridStatus.Available)), [], 1, [], 1⟩

/-- C1: the claim says that after every completed operation a grid is
Occupied iff at least one IN drum references it and Available iff none
does.  The code violates this: after placing D010 and D011 on grid B2 and
removing D010 by a completed `update_drum_out`, grid B2 is marked
Available although D011 still has Status IN and CurrentGrid B2 (the
source clears the removed drum's row before counting the remaining IN
drums, yet still compares the count with `<= 1`). -/
theorem c1_grid_invariant_fails_after_remove :
    gridStatus c1State "B2" = some GridStatus.Available ∧
    (get_drums_by_grid c1State "B2").map Prod.fst = ["D011"] ∧
    ¬ gridInvariant c1State := by
  decide

/-- C2: in the batch scenario (D002 and D003 both on C1), `BatchRemove("C1")`
does remove both drums, writing exactly two history rows and exactly two
OUT transactions and ending with C1 Available — but contrary to the claim,
C1 is already Available after the first of the two removals completes,
while D003 still references it. -/
theorem c2_batch_remove_grid_available_too_early :
    (get_drums_by_grid c2Placed "C1").map Prod.fst = ["D002", "D003"] ∧
    c2Final = (update_drum_out c2AfterFirst "D003" 3).1 ∧
    (get_drum c2Final "D002").map DrumRow.Status = some DrumStatus.OUT ∧
    (get_drum c2Final "D003").map DrumRow.Status = some DrumStatus.OUT ∧
    c2Final.drum_history.length = 2 ∧
    (c2Final.transactions.filter (fun t => t.Status == TxnStatus.OUT)).length = 2 ∧
    gridStatus c2Final "C1" = some GridStatus.Available ∧
    gridStatus c2AfterFirst "C1" = some GridStatus.Available ∧
    (get_drums_by_grid c2AfterFirst "C1").map Prod.fst = ["D003"] := by
  decide

/-- C5 counterexample: D001 has Status IN on grid A1; shifting it to the
destination grid A1 itself is a successful `shift_drum_grid`, after which
no other IN drum references A1, yet A1 ends Occupied and not Available —
so the claim's clause "the old grid is Available iff no other IN drum
remains on it", quantified over every destination grid, fails at g2 = g1. -/
theorem c5_counterexample_same_grid_shift :
    (get_drum c5State "D001").map DrumRow.Status = some DrumStatus.IN ∧
    (get_drum c5State "D001").map DrumRow.CurrentGrid = some (some "A1") ∧
    (shift_drum_grid c5State "D001" "A1" 3).2 = true ∧
    (∀ p ∈ c5Shifted.drums, p.1 ≠ "D001" →
      ¬(p.2.CurrentGrid = some "A1" ∧ p.2.Status = DrumStatus.IN)) ∧
    gridStatus c5Shifted "A1" = some GridStatus.Occupied := by
  decide

/-- C6 counterexample: grid B2 is Occupied (drum D004 is on it), yet
`shift_drum_grid` of D001 onto B2 succeeds and changes the state — the
drum is moved onto the unavailable grid instead of the operation failing
with a capacity error and no state change. -/
theorem c6_counterexample_shift_onto_occupied :
    gridStatus c6State "B2" = some GridStatus.Occupied ∧
    (shift_drum_grid c6State "D001" "B2" 3).2 = true ∧
    (shift_drum_grid c6State "D001" "B2" 3).1 ≠ c6State ∧
    (get_drum (shift_drum_grid c6State "D001" "B2" 3).1 "D001").map
      DrumRow.CurrentGrid = some (some "B2") := by
  decide

theorem lookup_cons_self {β : Type} (k : String) (w : β) (t : List (String × β)) :
    ((k, w) :: t).lookup k = some w := by
  simp [List.lookup]

theorem lookup_cons_ne {β : Type} {d k : String} (w : β) (t : List (String × β))
    (h : d ≠ k) : ((k, w) :: t).lookup d = t.lookup d := by
  have hb : (d == k) = false := beq_eq_false_iff_ne.mpr h
  simp [List.lookup, hb]

theorem lookup_eq_some_mem {β : Type} {l : List (String × β)} {d : String} {v : β}
    (h : l.lookup d = some v) : (d, v) ∈ l := by
  induction l with
  | nil => simp [List.lookup] at h
  | cons p t ih =>
    obtain ⟨k, w⟩ := p
    by_cases hk : d = k
    · subst hk
      rw [lookup_cons_self] at h
      cases h
      exact List.mem_cons_self _ _
    · rw [lookup_cons_ne _ _ hk] at h
      exact List.mem_cons_of_mem _ (ih h)

theorem lookup_eq_none_iff {β : Type} {l : List (String × β)} {d : String} :
    l.lookup d = none ↔ ∀ p ∈ l, p.1 ≠ d := by
  induction l with
  | nil => simp [List.lookup]
  | cons p t ih =>
    obtain ⟨k, w⟩ := p
    by_cases hk : d = k
    · subst hk
      rw [lookup_cons_self]
      simp
    · rw [lookup_cons_ne _ _ hk]
      simp only [ih, List.mem_cons]
      constructor
      · rintro h p (rfl | hp)
        · simpa using fun h2 => hk h2.symm
        · exact h p hp
      · intro h p hp
        exact h p (Or.inr hp)

theorem mem_lookup_of_nodup {β : Type} {l : List (String × β)} {d : String} {v : β}
    (hn : (l.map Prod.fst).Nodup) (h : (d, v) ∈ l) : l.lookup d = some v := by
  induction l with
  | nil => simp at h
  | cons p t ih =>
    obtain ⟨k, w⟩ := p
    simp only [List.map, List.nodup_cons] at hn
    rcases List.mem_cons.1 h with heq | hmem
    · cases heq
      exact lookup_cons_self _ _ _
    · have hdk : d ≠ k := by
        intro hdk
        subst hdk
        exact hn.1 (List.mem_map.2 ⟨(d, v), hmem, rfl⟩)
      rw [lookup_cons_ne _ _ hdk]
      exact ih hn.2 hmem

theorem lookup_append_assoc {β : Type} (l1 l2 : List (String × β)) (d : String) :
    (l1 ++ l2).lookup d =
      match l1.lookup d with
      | some v => some v
      | none => l2.lookup d := by
  induction l1 with
  | nil => simp [List.lookup]
  | cons p t ih =>
    obtain ⟨k, w⟩ := p
    by_cases hk : d = k
    · subst hk
      rw [List.cons_append, lookup_cons_self, lookup_cons_self]
    · rw [List.cons_append, lookup_cons_ne _ _ hk, lookup_cons_ne _ _ hk]
      exact ih

theorem lookup_updateDrumRow (l : List (String × DrumRow)) (d d2 : String)
    (f : DrumRow → DrumRow) :
    (updateDrumRow l d f).lookup d2 =
      if d2 = d then (l.lookup d2).map f else l.lookup d2 := by
  induction l with
  | nil => by_cases h : d2 = d <;> simp [updateDrumRow, List.lookup, h]
  | cons p t ih =>
    obtain ⟨k, w⟩ := p
    simp only [updateDrumRow, List.map] at ih ⊢
    by_cases h1 : k = d
    · subst h1
      rw [if_pos (by simp)]
      by_cases h2 : d2 = k
      · subst h2
        rw [lookup_cons_self, lookup_cons_self, if_pos rfl]
        rfl
      · rw [lookup_cons_ne _ _ h2, lookup_cons_ne _ _ h2, ih]
    · rw [if_neg (by simpa using h1)]
      by_cases h2 : d2 = k
      · subst h2
        rw [lookup_cons_self, lookup_cons_self, if_neg h1]
      · rw [lookup_cons_ne _ _ h2, lookup_cons_ne _ _ h2, ih]

theorem lookup_setGridStatus (l : List (String × GridStatus)) (g g2 : String)
    (s : GridStatus) :
    (setGridStatus l g s).lookup g2 =
      if g2 = g then (l.lookup g2).map (fun _ => s) else l.lookup g2 := by
  induction l with
  | nil => by_cases h : g2 = g <;> simp [setGridStatus, List.lookup, h]
  | cons p t ih =>
    obtain ⟨k, w⟩ := p
    simp only [setGridStatus, List.map] at ih ⊢
    by_cases h1 : k = g
    · subst h1
      rw [if_pos (by simp)]
      by_cases h2 : g2 = k
      · subst h2
        rw [lookup_cons_self, lookup_cons_self, if_pos rfl]
        rfl
      · rw [lookup_cons_ne _ _ h2, lookup_cons_ne _ _ h2, ih]
    · rw [if_neg (by simpa using h1)]
      by_cases h2 : g2 = k
      · subst h2
        rw [lookup_cons_self, lookup_cons_self, if_neg h1]
      · rw [lookup_cons_ne _ _ h2, lookup_cons_ne _ _ h2, ih]

theorem keys_updateDrumRow (l : List (String × DrumRow)) (d : String)
    (f : DrumRow → DrumRow) :
    (updateDrumRow l d f).map Prod.fst = l.map Prod.fst := by
  unfold updateDrumRow
  rw [List.map_map]
  apply List.map_congr_left
  intro p _
  by_cases h : p.1 = d
  · simp [h]
  · simp [if_neg (by simpa using h)]

theorem mem_updateDrumRow {l : List (String × DrumRow)} {d : String}
    {f : DrumRow → DrumRow} {p : String × DrumRow} (h : p ∈ updateDrumRow l d f) :
    (p ∈ l ∧ p.1 ≠ d) ∨ ∃ v, (d, v) ∈ l ∧ p = (d, f v) := by
  simp only [updateDrumRow, List.mem_map] at h
  obtain ⟨q, hq, hqe⟩ := h
  by_cases h1 : q.1 = d
  · right
    refine ⟨q.2, ?_, ?_⟩
    · rw [← h1]
      exact hq
    · rw [← hqe]
      simp [h1]
  · left
    rw [← hqe, if_neg (by simpa using h1)]
    exact ⟨hq, h1⟩

theorem mem_updateDrumRow_of_ne {l : List (String × DrumRow)} {d : String}
    {f : DrumRow → DrumRow} {p : String × DrumRow} (h : p ∈ l) (hne : p.1 ≠ d) :
    p ∈ updateDrumRow l d f := by
  simp only [updateDrumRow, List.mem_map]
  exact ⟨p, h, by simp [if_neg (by simpa using hne)]⟩

theorem mem_get_drums_by_grid {db : DB} {g : String} {p : String × DrumRow} :
    p ∈ get_drums_by_grid db g ↔
      p ∈ db.drums ∧ p.2.CurrentGrid = some g ∧ p.2.Status = DrumStatus.IN := by
  simp [get_drums_by_grid, List.mem_filter, Bool.and_eq_true, beq_iff_eq, and_assoc]

theorem update_drum_in_eq (db : DB) (d g : String) (now : Nat) :
    update_drum_in db d g now =
      { db with drums := updateDrumRow db.drums d (markIn g now),
                grids := setGridStatus db.grids g GridStatus.Occupied,
                transactions := db.transactions ++ [⟨db.nextTxnId, d, g, TxnStatus.IN, now⟩],
                nextTxnId := db.nextTxnId + 1 } :=
  rfl

theorem insert_drum_of_absent {db : DB} {d : String} (o ra ct q : String) (now : Nat)
    (h : get_drum db d = none) :
    insert_drum db d o ra ct q now =
      { db with drums := db.drums ++ [(d, ⟨some o, some ra, some q, some ct, DrumStatus.OUT, none, now⟩)] } := by
  have hnone : ∀ p ∈ db.drums, p.1 ≠ d := lookup_eq_none_iff.mp h
  have hany : db.drums.any (fun p => p.1 == d) = false := by
    rw [List.any_eq_false]
    intro p hp
    simpa using hnone p hp
  unfold insert_drum
  rw [hany]
  rfl

theorem update_drum_info_eq (db : DB) (d o ra ct q : String) (now : Nat) :
    update_drum_info db d o ra ct q now =
      { db with drums := updateDrumRow db.drums d (fun _ => ⟨some o, some ra, some q, some ct, DrumStatus.OUT, none, now⟩) } :=
  rfl

theorem place_drum_snd {d o ra ct q : String} (db : DB) (g : String) (now : Nat)
    (hd : d ≠ "") (ho : o ≠ "") (hra : ra ≠ "") (hct : ct ≠ "") (hq : q ≠ "") :
    (place_drum db d o ra ct q g now).2 = true := by
  unfold place_drum
  rw [beq_eq_false_iff_ne.mpr hd, beq_eq_false_iff_ne.mpr ho, beq_eq_false_iff_ne.mpr hra,
      beq_eq_false_iff_ne.mpr hq, beq_eq_false_iff_ne.mpr hct]
  rfl

theorem place_drum_fst {d o ra ct q : String} (db : DB) (g : String) (now : Nat)
    (hd : d ≠ "") (ho : o ≠ "") (hra : ra ≠ "") (hct : ct ≠ "") (hq : q ≠ "") :
    (place_drum db d o ra ct q g now).1 =
      update_drum_in
        (match get_drum db d with
         | none => insert_drum db d o ra ct q now
         | some _ => update_drum_info db d o ra ct q now) d g now := by
  unfold place_drum
  rw [beq_eq_false_iff_ne.mpr hd, beq_eq_false_iff_ne.mpr ho, beq_eq_false_iff_ne.mpr hra,
      beq_eq_false_iff_ne.mpr hq, beq_eq_false_iff_ne.mpr hct]
  rfl

theorem update_drum_out_fail {db : DB} {d : String} (now : Nat)
    (h : get_drum db d = none ∨ ∃ r, get_drum db d = some r ∧ r.CurrentGrid = none) :
    update_drum_out db d now = (db, false) := by
  unfold update_drum_out
  rcases h with h | ⟨r, hr, hg⟩
  · rw [h]
  · rw [hr]
    dsimp only
    rw [hg]

theorem update_drum_out_snd {db : DB} {d : String} {r : DrumRow} {g : String} (now : Nat)
    (hr : get_drum db d = some r) (hg : r.CurrentGrid = some g) :
    (update_drum_out db d now).2 = true := by
  unfold update_drum_out
  rw [hr]
  dsimp only
  rw [hg]

theorem update_drum_out_drums {db : DB} {d : String} {r : DrumRow} {g : String} (now : Nat)
    (hr : get_drum db d = some r) (hg : r.CurrentGrid = some g) :
    (update_drum_out db d now).1.drums =
      updateDrumRow db.drums d (fun _ => ⟨none, none, none, none, DrumStatus.OUT, none, now⟩) := by
  unfold update_drum_out
  rw [hr]
  dsimp only
  rw [hg]
  dsimp only
  split <;> rfl

theorem update_drum_out_history {db : DB} {d : String} {r : DrumRow} {g : String} (now : Nat)
    (hr : get_drum db d = some r) (hg : r.CurrentGrid = some g) :
    (update_drum_out db d now).1.drum_history =
      db.drum_history ++ [⟨db.nextHistId, d, r.OrderNo, r.RA, r.Quantity, r.CellType, TxnStatus.OUT, g, now⟩] := by
  unfold update_drum_out
  rw [hr]
  dsimp only
  rw [hg]
  dsimp only
  split <;> rfl

theorem update_drum_out_txns {db : DB} {d : String} {r : DrumRow} {g : String} (now : Nat)
    (hr : get_drum db d = some r) (hg : r.CurrentGrid = some g) :
    (update_drum_out db d now).1.transactions =
      db.transactions ++ [⟨db.nextTxnId, d, g, TxnStatus.OUT, now⟩] := by
  unfold update_drum_out
  rw [hr]
  dsimp only
  rw [hg]
  dsimp only
  split <;> rfl

theorem update_drum_out_nextTxnId {db : DB} {d : String} {r : DrumRow} {g : String} (now : Nat)
    (hr : get_drum db d = some r) (hg : r.CurrentGrid = some g) :
    (update_drum_out db d now).1.nextTxnId = db.nextTxnId + 1 := by
  unfold update_drum_out
  rw [hr]
  dsimp only
  rw [hg]
  dsimp only
  split <;> rfl

theorem update_drum_out_grids {db : DB} {d : String} {r : DrumRow} {g : String} (now : Nat)
    (hr : get_drum db d = some r) (hg : r.CurrentGrid = some g) :
    (update_drum_out db d now).1.grids =
      if (List.filter (fun p => p.2.CurrentGrid == some g && p.2.Status == DrumStatus.IN) (updateDrumRow db.drums d (fun _ => ⟨none, none, none, none, DrumStatus.OUT, none, now⟩))).length ≤ 1
      then setGridStatus db.grids g GridStatus.Available
      else db.grids := by
  unfold update_drum_out
  rw [hr]
  dsimp only
  rw [hg]
  dsimp only
  split <;> rename_i hcond <;>
    simp only [get_drums_by_grid] at hcond <;>
    [rw [if_pos hcond]; rw [if_neg hcond]] <;> rfl

theorem shift_drum_grid_fail {db : DB} {d : String} (g2 : String) (now : Nat)
    (h : get_drum db d = none ∨ ∃ r, get_drum db d = some r ∧ r.CurrentGrid = none) :
    shift_drum_grid db d g2 now = (db, false) := by
  unfold shift_drum_grid
  rcases h with h | ⟨r, hr, hg⟩
  · rw [h]
  · rw [hr]
    dsimp only
    rw [hg]

theorem shift_drum_grid_snd {db : DB} {d : String} {r : DrumRow} {g1 : String}
    (g2 : String) (now : Nat)
    (hr : get_drum db d = some r) (hg : r.CurrentGrid = some g1) :
    (shift_drum_grid db d g2 now).2 = true := by
  unfold shift_drum_grid
  rw [hr]
  dsimp only
  rw [hg]

theorem shift_drum_grid_drums {db : DB} {d : String} {r : DrumRow} {g1 : String}
    (g2 : String) (now : Nat)
    (hr : get_drum db d = some r) (hg : r.CurrentGrid = some g1) :
    (shift_drum_grid db d g2 now).1.drums =
      updateDrumRow db.drums d (moveTo g2 now) := by
  unfold shift_drum_grid
  rw [hr]
  dsimp only
  rw [hg]
  dsimp only
  split <;> rfl

theorem shift_drum_grid_txns {db : DB} {d : String} {r : DrumRow} {g1 : String}
    (g2 : String) (now : Nat)
    (hr : get_drum db d = some r) (hg : r.CurrentGrid = some g1) :
    (shift_drum_grid db d g2 now).1.transactions =
      db.transactions ++ [⟨db.nextTxnId, d, g2, TxnStatus.SHIFT, now⟩] := by
  unfold shift_drum_grid
  rw [hr]
  dsimp only
  rw [hg]
  dsimp only
  split <;> rfl

theorem shift_drum_grid_nextTxnId {db : DB} {d : String} {r : DrumRow} {g1 : String}
    (g2 : String) (now : Nat)
    (hr : get_drum db d = some r) (hg : r.CurrentGrid = some g1) :
    (shift_drum_grid db d g2 now).1.nextTxnId = db.nextTxnId + 1 := by
  unfold shift_drum_grid
  rw [hr]
  dsimp only
  rw [hg]
  dsimp only
  split <;> rfl

theorem shift_drum_grid_history {db : DB} {d : String} {r : DrumRow} {g1 : String}
    (g2 : String) (now : Nat)
    (hr : get_drum db d = some r) (hg : r.CurrentGrid = some g1) :
    (shift_drum_grid db d g2 now).1.drum_history = db.drum_history := by
  unfold shift_drum_grid
  rw [hr]
  dsimp only
  rw [hg]
  dsimp only
  split <;> rfl

theorem shift_drum_grid_grids {db : DB} {d : String} {r : DrumRow} {g1 : String}
    (g2 : String) (now : Nat)
    (hr : get_drum db d = some r) (hg : r.CurrentGrid = some g1) :
    (shift_drum_grid db d g2 now).1.grids =
      setGridStatus
        (if (get_drums_by_grid db g1).length ≤ 1
         then setGridStatus db.grids g1 GridStatus.Available
         else db.grids) g2 GridStatus.Occupied := by
  unfold shift_drum_grid
  rw [hr]
  dsimp only
  rw [hg]
  dsimp only
  split <;> rfl

theorem eq_singleton_of_mem_of_len_le_one {α : Type} {x : α} {L : List α}
    (hm : x ∈ L) (hl : L.length ≤ 1) : L = [x] := by
  cases L with
  | nil => cases hm
  | cons a t =>
    cases t with
    | nil =>
      rcases List.mem_singleton.mp hm with rfl
      rfl
    | cons b t2 =>
      simp only [List.length_cons] at hl
      omega

theorem exists_ne_key_of_two {L : List (String × DrumRow)} {x : String × DrumRow}
    (hm : x ∈ L) (hl : 2 ≤ L.length) (hn : (L.map Prod.fst).Nodup) :
    ∃ y ∈ L, y.1 ≠ x.1 := by
  cases L with
  | nil => cases hm
  | cons a t =>
    cases t with
    | nil => simp at hl
    | cons b t2 =>
      have hab : a.1 ≠ b.1 := by
        simp only [List.map, List.nodup_cons, List.mem_cons] at hn
        intro h
        exact hn.1 (Or.inl h)
      by_cases hax : a.1 = x.1
      · refine ⟨b, List.mem_cons_of_mem _ (List.mem_cons_self _ _), ?_⟩
        rw [← hax]
        exact fun h => hab h.symm
      · exact ⟨a, List.mem_cons_self _ _, hax⟩

theorem place_drum_lookup_self {d o ra ct q : String} (db : DB) (g : String) (now : Nat)
    (hd : d ≠ "") (ho : o ≠ "") (hra : ra ≠ "") (hct : ct ≠ "") (hq : q ≠ "") :
    get_drum (place_drum db d o ra ct q g now).1 d =
      some ⟨some o, some ra, some q, some ct, DrumStatus.IN, some g, now⟩ := by
  rw [place_drum_fst db g now hd ho hra hct hq]
  cases hcase : get_drum db d with
  | none =>
    show ((update_drum_in (insert_drum db d o ra ct q now) d g now).drums).lookup d = _
    rw [update_drum_in_eq, insert_drum_of_absent o ra ct q now hcase]
    dsimp only
    rw [lookup_updateDrumRow, if_pos rfl, lookup_append_assoc]
    have hnone : db.drums.lookup d = none := hcase
    rw [hnone]
    dsimp only
    rw [lookup_cons_self]
    rfl
  | some v =>
    show ((update_drum_in (update_drum_info db d o ra ct q now) d g now).drums).lookup d = _
    rw [update_drum_in_eq, update_drum_info_eq]
    dsimp only
    rw [lookup_updateDrumRow, if_pos rfl, lookup_updateDrumRow, if_pos rfl]
    have hsome : db.drums.lookup d = some v := hcase
    rw [hsome]
    rfl

theorem place_drum_lookup_ne {d o ra ct q : String} (db : DB) (g : String) (now : Nat)
    {d2 : String} (hd2 : d2 ≠ d)
    (hd : d ≠ "") (ho : o ≠ "") (hra : ra ≠ "") (hct : ct ≠ "") (hq : q ≠ "") :
    get_drum (place_drum db d o ra ct q g now).1 d2 = get_drum db d2 := by
  rw [place_drum_fst db g now hd ho hra hct hq]
  cases hcase : get_drum db d with
  | none =>
    show ((update_drum_in (insert_drum db d o ra ct q now) d g now).drums).lookup d2 = _
    rw [update_drum_in_eq, insert_drum_of_absent o ra ct q now hcase]
    dsimp only
    rw [lookup_updateDrumRow, if_neg hd2, lookup_append_assoc]
    show _ = db.drums.lookup d2
    cases hcase2 : db.drums.lookup d2 with
    | none =>
      dsimp only
      exact lookup_cons_ne _ _ hd2
    | some w => rfl
  | some v =>
    show ((update_drum_in (update_drum_info db d o ra ct q now) d g now).drums).lookup d2 = _
    rw [update_drum_in_eq, update_drum_info_eq]
    dsimp only
    rw [lookup_updateDrumRow, if_neg hd2, lookup_updateDrumRow, if_neg hd2]
    rfl

theorem place_drum_mem_ne {d o ra ct q : String} (db : DB) (g : String) (now : Nat)
    {p : String × DrumRow}
    (hd : d ≠ "") (ho : o ≠ "") (hra : ra ≠ "") (hct : ct ≠ "") (hq : q ≠ "")
    (hp : p ∈ (place_drum db d o ra ct q g now).1.drums) (hne : p.1 ≠ d) :
    p ∈ db.drums := by
  rw [place_drum_fst db g now hd ho hra hct hq] at hp
  cases hcase : get_drum db d with
  | none =>
    rw [hcase] at hp
    rw [update_drum_in_eq, insert_drum_of_absent o ra ct q now hcase] at hp
    dsimp only at hp
    rcases mem_updateDrumRow hp with ⟨hpin, _⟩ | ⟨v, _, rfl⟩
    · rcases List.mem_append.mp hpin with hleft | hright
      · exact hleft
      · rcases List.mem_singleton.mp hright with rfl
        exact absurd rfl hne
    · exact absurd rfl hne
  | some v =>
    rw [hcase] at hp
    rw [update_drum_in_eq, update_drum_info_eq] at hp
    dsimp only at hp
    rcases mem_updateDrumRow hp with ⟨hpin, _⟩ | ⟨w, _, rfl⟩
    · rcases mem_updateDrumRow hpin with ⟨hpin2, _⟩ | ⟨w, _, rfl⟩
      · exact hpin2
      · exact absurd rfl hne
    · exact absurd rfl hne

theorem place_drum_grids {d o ra ct q : String} (db : DB) (g : String) (now : Nat)
    (hd : d ≠ "") (ho : o ≠ "") (hra : ra ≠ "") (hct : ct ≠ "") (hq : q ≠ "") :
    (place_drum db d o ra ct q g now).1.grids = setGridStatus db.grids g GridStatus.Occupied := by
  rw [place_drum_fst db g now hd ho hra hct hq]
  cases hcase : get_drum db d <;> rfl

theorem place_drum_txns {d o ra ct q : String} (db : DB) (g : String) (now : Nat)
    (hd : d ≠ "") (ho : o ≠ "") (hra : ra ≠ "") (hct : ct ≠ "") (hq : q ≠ "") :
    (place_drum db d o ra ct q g now).1.transactions =
      db.transactions ++ [⟨db.nextTxnId, d, g, TxnStatus.IN, now⟩] := by
  rw [place_drum_fst db g now hd ho hra hct hq]
  cases hcase : get_drum db d <;> rfl

theorem place_drum_history {d o ra ct q : String} (db : DB) (g : String) (now : Nat)
    (hd : d ≠ "") (ho : o ≠ "") (hra : ra ≠ "") (hct : ct ≠ "") (hq : q ≠ "") :
    (place_drum db d o ra ct q g now).1.drum_history = db.drum_history := by
  rw [place_drum_fst db g now hd ho hra hct hq]
  cases hcase : get_drum db d <;> rfl

theorem place_drum_nextHistId {d o ra ct q : String} (db : DB) (g : String) (now : Nat)
    (hd : d ≠ "") (ho : o ≠ "") (hra : ra ≠ "") (hct : ct ≠ "") (hq : q ≠ "") :
    (place_drum db d o ra ct q g now).1.nextHistId = db.nextHistId := by
  rw [place_drum_fst db g now hd ho hra hct hq]
  cases hcase : get_drum db d <;> rfl

theorem place_drum_nextTxnId {d o ra ct q : String} (db : DB) (g : String) (now : Nat)
    (hd : d ≠ "") (ho : o ≠ "") (hra : ra ≠ "") (hct : ct ≠ "") (hq : q ≠ "") :
    (place_drum db d o ra ct q g now).1.nextTxnId = db.nextTxnId + 1 := by
  rw [place_drum_fst db g now hd ho hra hct hq]
  cases hcase : get_drum db d <;> rfl

theorem place_drum_mem_eq {d o ra ct q : String} (db : DB) (g : String) (now : Nat)
    {p : String × DrumRow}
    (hd : d ≠ "") (ho : o ≠ "") (hra : ra ≠ "") (hct : ct ≠ "") (hq : q ≠ "")
    (hp : p ∈ (place_drum db d o ra ct q g now).1.drums) (heq : p.1 = d) :
    p.2.CurrentGrid = some g ∧ p.2.Status = DrumStatus.IN := by
  rw [place_drum_fst db g now hd ho hra hct hq] at hp
  cases hcase : get_drum db d with
  | none =>
    rw [hcase] at hp
    rw [update_drum_in_eq, insert_drum_of_absent o ra ct q now hcase] at hp
    dsimp only at hp
    rcases mem_updateDrumRow hp with ⟨_, hpne⟩ | ⟨v, _, rfl⟩
    · exact absurd heq hpne
    · exact ⟨rfl, rfl⟩
  | some v =>
    rw [hcase] at hp
    rw [update_drum_in_eq, update_drum_info_eq] at hp
    dsimp only at hp
    rcases mem_updateDrumRow hp with ⟨_, hpne⟩ | ⟨w, _, rfl⟩
    · exact absurd heq hpne
    · exact ⟨rfl, rfl⟩

/-- C4: removing a drum that is absent or already OUT is signaled as a
failure (the operation returns `false`, the code's single failure signal
standing for the spec's `InvalidStateError`) and the database is returned
exactly unchanged: no drum or grid row is modified and no transaction or
history row is appended. -/
theorem c4_remove_absent_or_out_is_clean_failure (db : DB) (d : String) (now : Nat)
    (hinv : drumInvariant db)
    (h : get_drum db d = none ∨ ∃ r, get_drum db d = some r ∧ r.Status = DrumStatus.OUT) :
    update_drum_out db d now = (db, false) := by
  apply update_drum_out_fail
  rcases h with h | ⟨r, hr, hout⟩
  · exact Or.inl h
  · refine Or.inr ⟨r, hr, ?_⟩
    have hiff := (hinv (d, r) (lookup_eq_some_mem hr)).1
    by_contra hne
    have hin : r.Status = DrumStatus.IN := hiff.mp hne
    rw [hout] at hin
    cases hin

theorem c4_witness :
    update_drum_out c4Db "D009" 5 = (c4Db, false) ∧
    update_drum_out c4Db "D999" 5 = (c4Db, false) := by
  constructor
  · exact c4_remove_absent_or_out_is_clean_failure c4Db "D009" 5 (by decide)
      (Or.inr ⟨⟨none, none, none, none, DrumStatus.OUT, none, 0⟩, by decide⟩)
  · exact c4_remove_absent_or_out_is_clean_failure c4Db "D999" 5 (by decide)
      (Or.inl (by decide))

/-- C6 (amended): `shift_drum_grid` performs no availability or
distinctness check on the destination grid: on any drum whose
`CurrentGrid` is non-null it succeeds for every destination, even one
already Occupied, moving the drum there, leaving the destination
Occupied and appending one SHIFT transaction; destination availability is
enforced only by the UI, which offers Available grids as choices. -/
theorem c6_shift_succeeds_on_occupied_destination (db : DB) (d g2 : String) (now : Nat)
    (r : DrumRow) (g1 : String)
    (hr : get_drum db d = some r) (hg : r.CurrentGrid = some g1)
    (hocc : gridStatus db g2 = some GridStatus.Occupied) :
    (shift_drum_grid db d g2 now).2 = true ∧
    (get_drum (shift_drum_grid db d g2 now).1 d).map DrumRow.CurrentGrid = some (some g2) ∧
    gridStatus (shift_drum_grid db d g2 now).1 g2 = some GridStatus.Occupied ∧
    (shift_drum_grid db d g2 now).1.transactions = db.transactions ++ [⟨db.nextTxnId, d, g2, TxnStatus.SHIFT, now⟩] := by
  refine ⟨shift_drum_grid_snd g2 now hr hg, ?_, ?_, shift_drum_grid_txns g2 now hr hg⟩
  · show ((shift_drum_grid db d g2 now).1.drums.lookup d).map DrumRow.CurrentGrid = _
    have hr2 : db.drums.lookup d = some r := hr
    rw [shift_drum_grid_drums g2 now hr hg, lookup_updateDrumRow, if_pos rfl, hr2]
    rfl
  · show (shift_drum_grid db d g2 now).1.grids.lookup g2 = some GridStatus.Occupied
    rw [shift_drum_grid_grids g2 now hr hg, lookup_setGridStatus, if_pos rfl]
    unfold gridStatus at hocc
    by_cases hcond : (get_drums_by_grid db g1).length ≤ 1
    · rw [if_pos hcond, lookup_setGridStatus]
      by_cases h12 : g2 = g1
      · rw [if_pos h12, hocc]
        rfl
      · rw [if_neg h12, hocc]
        rfl
    · rw [if_neg hcond, hocc]
      rfl

/-- C5 (amended): for a drum `d` with Status IN on grid `g1`, a destination
grid `g2` that differs from `g1`, with `g1` marked Occupied beforehand and
`DrumID` a true primary key, a successful `shift_drum_grid` preserves the
drum's metadata and Status exactly — only `CurrentGrid` and `LastUpdated`
change — leaves every other drum row untouched, ends with `g1` Available
iff no IN drum still references it, marks `g2` Occupied, appends exactly
one SHIFT transaction and writes no history row. -/
theorem c5_shift_frame_amended (db : DB) (d g1 g2 : String) (now : Nat) (r : DrumRow)
    (hk : keysNodup db)
    (hr : get_drum db d = some r)
    (hg1 : r.CurrentGrid = some g1)
    (hin : r.Status = DrumStatus.IN)
    (hne : g2 ≠ g1)
    (hocc : gridStatus db g1 = some GridStatus.Occupied)
    (hg2 : (db.grids.lookup g2).isSome = true) :
    (shift_drum_grid db d g2 now).2 = true ∧
    get_drum (shift_drum_grid db d g2 now).1 d = some { r with CurrentGrid := some g2, LastUpdated := now } ∧
    (∀ d2, d2 ≠ d → get_drum (shift_drum_grid db d g2 now).1 d2 = get_drum db d2) ∧
    (gridStatus (shift_drum_grid db d g2 now).1 g1 = some GridStatus.Available ↔
      ∀ p ∈ (shift_drum_grid db d g2 now).1.drums, ¬(p.2.CurrentGrid = some g1 ∧ p.2.Status = DrumStatus.IN)) ∧
    gridStatus (shift_drum_grid db d g2 now).1 g2 = some GridStatus.Occupied ∧
    (shift_drum_grid db d g2 now).1.transactions = db.transactions ++ [⟨db.nextTxnId, d, g2, TxnStatus.SHIFT, now⟩] ∧
    (shift_drum_grid db d g2 now).1.drum_history = db.drum_history := by
  have hdrums := shift_drum_grid_drums g2 now hr hg1
  have hgrids := shift_drum_grid_grids g2 now hr hg1
  have hr2 : db.drums.lookup d = some r := hr
  have hocc2 : db.grids.lookup g1 = some GridStatus.Occupied := hocc
  have hmemd : (d, r) ∈ get_drums_by_grid db g1 :=
    mem_get_drums_by_grid.mpr ⟨lookup_eq_some_mem hr, hg1, hin⟩
  refine ⟨shift_drum_grid_snd g2 now hr hg1, ?_, ?_, ?_, ?_,
    shift_drum_grid_txns g2 now hr hg1, shift_drum_grid_history g2 now hr hg1⟩
  · show (shift_drum_grid db d g2 now).1.drums.lookup d = _
    rw [hdrums, lookup_updateDrumRow, if_pos rfl, hr2]
    rfl
  · intro d2 hd2
    show (shift_drum_grid db d g2 now).1.drums.lookup d2 = db.drums.lookup d2
    rw [hdrums, lookup_updateDrumRow, if_neg hd2]
  · show (shift_drum_grid db d g2 now).1.grids.lookup g1 = some GridStatus.Available ↔ _
    rw [hgrids, lookup_setGridStatus, if_neg (fun h => hne h.symm)]
    by_cases hcond : (get_drums_by_grid db g1).length ≤ 1
    · rw [if_pos hcond, lookup_setGridStatus, if_pos rfl, hocc2]
      apply iff_of_true rfl
      intro p hp
      rw [hdrums] at hp
      rcases mem_updateDrumRow hp with ⟨hpin, hpne⟩ | ⟨v, _, rfl⟩
      · rintro ⟨hpg, hps⟩
        have hpfil : p ∈ get_drums_by_grid db g1 := mem_get_drums_by_grid.mpr ⟨hpin, hpg, hps⟩
        rw [eq_singleton_of_mem_of_len_le_one hmemd hcond, List.mem_singleton] at hpfil
        exact hpne (by rw [hpfil])
      · rintro ⟨hpg, _⟩
        exact hne (by simpa [moveTo] using hpg)
    · rw [if_neg hcond, hocc2]
      apply iff_of_false (by simp)
      intro hall
      have hl2 : 2 ≤ (get_drums_by_grid db g1).length := by omega
      have hnd : ((get_drums_by_grid db g1).map Prod.fst).Nodup := by
        have hsub : ((get_drums_by_grid db g1).map Prod.fst).Sublist (db.drums.map Prod.fst) :=
          List.Sublist.map Prod.fst (List.filter_sublist db.drums)
        exact List.Nodup.sublist hsub hk
      obtain ⟨y, hyL, hyne⟩ := exists_ne_key_of_two hmemd hl2 hnd
      obtain ⟨hyin, hyg, hys⟩ := mem_get_drums_by_grid.mp hyL
      have hymem : y ∈ (shift_drum_grid db d g2 now).1.drums := by
        rw [hdrums]
        exact mem_updateDrumRow_of_ne hyin hyne
      exact hall y hymem ⟨hyg, hys⟩
  · show (shift_drum_grid db d g2 now).1.grids.lookup g2 = some GridStatus.Occupied
    rw [hgrids, lookup_setGridStatus, if_pos rfl]
    obtain ⟨s, hs⟩ := Option.isSome_iff_exists.mp hg2
    by_cases hcond : (get_drums_by_grid db g1).length ≤ 1
    · rw [if_pos hcond, lookup_setGridStatus, if_neg hne, hs]
      rfl
    · rw [if_neg hcond, hs]
      rfl

theorem c5_amended_witness :
    (shift_drum_grid c6State "D001" "C3" 9).2 = true ∧
    get_drum (shift_drum_grid c6State "D001" "C3" 9).1 "D001" = some ⟨some "O1", some "R1", some "10", some "TA", DrumStatus.IN, some "C3", 9⟩ ∧
    (∀ d2, d2 ≠ "D001" → get_drum (shift_drum_grid c6State "D001" "C3" 9).1 d2 = get_drum c6State d2) ∧
    (gridStatus (shift_drum_grid c6State "D001" "C3" 9).1 "A1" = some GridStatus.Available ↔
      ∀ p ∈ (shift_drum_grid c6State "D001" "C3" 9).1.drums, ¬(p.2.CurrentGrid = some "A1" ∧ p.2.Status = DrumStatus.IN)) ∧
    gridStatus (shift_drum_grid c6State "D001" "C3" 9).1 "C3" = some GridStatus.Occupied ∧
    (shift_drum_grid c6State "D001" "C3" 9).1.transactions = c6State.transactions ++ [⟨c6State.nextTxnId, "D001", "C3", TxnStatus.SHIFT, 9⟩] ∧
    (shift_drum_grid c6State "D001" "C3" 9).1.drum_history = c6State.drum_history :=
  c5_shift_frame_amended c6State "D001" "A1" "C3" 9
    ⟨some "O1", some "R1", some "10", some "TA", DrumStatus.IN, some "A1", 1⟩
    (by decide) (by decide) (by decide) (by decide) (by decide) (by decide) (by decide)

/-- C7: placing drum `d` with fully populated metadata on grid `g` and then
removing it (no other drum being IN on `g`) succeeds, restores `g` to
Available, leaves `d` with Status OUT and all four metadata fields
cleared, and appends exactly one history row carrying the metadata that
was set by the placement together with the vacated grid id `g`. -/
theorem c7_place_then_remove (db : DB) (d o ra ct q g : String) (t1 t2 : Nat)
    (hd : d ≠ "") (ho : o ≠ "") (hra : ra ≠ "") (hct : ct ≠ "") (hq : q ≠ "")
    (hg : (db.grids.lookup g).isSome = true)
    (hother : ∀ p ∈ db.drums, p.1 ≠ d → ¬(p.2.CurrentGrid = some g ∧ p.2.Status = DrumStatus.IN)) :
    (update_drum_out (place_drum db d o ra ct q g t1).1 d t2).2 = true ∧
    get_drum (update_drum_out (place_drum db d o ra ct q g t1).1 d t2).1 d = some ⟨none, none, none, none, DrumStatus.OUT, none, t2⟩ ∧
    gridStatus (update_drum_out (place_drum db d o ra ct q g t1).1 d t2).1 g = some GridStatus.Available ∧
    (update_drum_out (place_drum db d o ra ct q g t1).1 d t2).1.drum_history = db.drum_history ++ [⟨db.nextHistId, d, some o, some ra, some q, some ct, TxnStatus.OUT, g, t2⟩] := by
  have hr1 : get_drum (place_drum db d o ra ct q g t1).1 d =
      some ⟨some o, some ra, some q, some ct, DrumStatus.IN, some g, t1⟩ :=
    place_drum_lookup_self db g t1 hd ho hra hct hq
  have hcg : (⟨some o, some ra, some q, some ct, DrumStatus.IN, some g, t1⟩ : DrumRow).CurrentGrid = some g := rfl
  refine ⟨update_drum_out_snd t2 hr1 hcg, ?_, ?_, ?_⟩
  · show (update_drum_out (place_drum db d o ra ct q g t1).1 d t2).1.drums.lookup d = _
    have hr2 : (place_drum db d o ra ct q g t1).1.drums.lookup d = some ⟨some o, some ra, some q, some ct, DrumStatus.IN, some g, t1⟩ := hr1
    rw [update_drum_out_drums t2 hr1 hcg, lookup_updateDrumRow, if_pos rfl, hr2]
    rfl
  · show (update_drum_out (place_drum db d o ra ct q g t1).1 d t2).1.grids.lookup g = _
    rw [update_drum_out_grids t2 hr1 hcg]
    have hempty : List.filter (fun p => p.2.CurrentGrid == some g && p.2.Status == DrumStatus.IN) (updateDrumRow (place_drum db d o ra ct q g t1).1.drums d (fun _ => ⟨none, none, none, none, DrumStatus.OUT, none, t2⟩)) = [] := by
      rw [List.filter_eq_nil_iff]
      intro p hp
      rcases mem_updateDrumRow hp with ⟨hpin, hpne⟩ | ⟨v, _, rfl⟩
      · have hpdb : p ∈ db.drums := place_drum_mem_ne db g t1 hd ho hra hct hq hpin hpne
        have hnot := hother p hpdb hpne
        simp only [Bool.and_eq_true, beq_iff_eq]
        rintro ⟨h1, h2⟩
        exact hnot ⟨h1, h2⟩
      · simp
    rw [hempty, if_pos (by simp), lookup_setGridStatus, if_pos rfl,
        place_drum_grids db g t1 hd ho hra hct hq, lookup_setGridStatus, if_pos rfl]
    obtain ⟨s, hs⟩ := Option.isSome_iff_exists.mp hg
    rw [hs]
    rfl
  · rw [update_drum_out_history t2 hr1 hcg, place_drum_history db g t1 hd ho hra hct hq,
        place_drum_nextHistId db g t1 hd ho hra hct hq]

theorem c7_witness :
    (update_drum_out (place_drum initDB "D005" "OX" "RX" "TX" "QX" "A2" 1).1 "D005" 2).2 = true ∧
    get_drum (update_drum_out (place_drum initDB "D005" "OX" "RX" "TX" "QX" "A2" 1).1 "D005" 2).1 "D005" = some ⟨none, none, none, none, DrumStatus.OUT, none, 2⟩ ∧
    gridStatus (update_drum_out (place_drum initDB "D005" "OX" "RX" "TX" "QX" "A2" 1).1 "D005" 2).1 "A2" = some GridStatus.Available ∧
    (update_drum_out (place_drum initDB "D005" "OX" "RX" "TX" "QX" "A2" 1).1 "D005" 2).1.drum_history = initDB.drum_history ++ [⟨initDB.nextHistId, "D005", some "OX", some "RX", some "QX", some "TX", TxnStatus.OUT, "A2", 2⟩] :=
  c7_place_then_remove initDB "D005" "OX" "RX" "TX" "QX" "A2" 1 2
    (by decide) (by decide) (by decide) (by decide) (by decide) (by decide)
    (by intro p hp; cases hp)

/-- C10: when drum `d` is already IN on grid `g1` and the placement flow is
run again for `d` with destination `g2 ≠ g1`, the drum is moved to `g2`
with Status IN and freshly overwritten metadata, but the flow never
recomputes `g1`'s occupancy, so `g1` keeps Status Occupied even though no
IN drum references it any longer. -/
theorem c10_replacement_leaves_stale_occupied (db : DB) (d o ra ct q g1 g2 : String)
    (now : Nat) (r : DrumRow)
    (hr : get_drum db d = some r)
    (hg1 : r.CurrentGrid = some g1)
    (hin : r.Status = DrumStatus.IN)
    (hne : g2 ≠ g1)
    (hocc : gridStatus db g1 = some GridStatus.Occupied)
    (hd : d ≠ "") (ho : o ≠ "") (hra : ra ≠ "") (hct : ct ≠ "") (hq : q ≠ "")
    (hother : ∀ p ∈ db.drums, p.1 ≠ d → ¬(p.2.CurrentGrid = some g1 ∧ p.2.Status = DrumStatus.IN)) :
    get_drum (place_drum db d o ra ct q g2 now).1 d = some ⟨some o, some ra, some q, some ct, DrumStatus.IN, some g2, now⟩ ∧
    gridStatus (place_drum db d o ra ct q g2 now).1 g1 = some GridStatus.Occupied ∧
    get_drums_by_grid (place_drum db d o ra ct q g2 now).1 g1 = [] := by
  refine ⟨place_drum_lookup_self db g2 now hd ho hra hct hq, ?_, ?_⟩
  · show (place_drum db d o ra ct q g2 now).1.grids.lookup g1 = _
    rw [place_drum_grids db g2 now hd ho hra hct hq, lookup_setGridStatus,
        if_neg (fun h => hne h.symm)]
    exact hocc
  · unfold get_drums_by_grid
    rw [List.filter_eq_nil_iff]
    intro p hp
    by_cases hpd : p.1 = d
    · have hpg : p.2.CurrentGrid = some g2 :=
        (place_drum_mem_eq db g2 now hd ho hra hct hq hp hpd).1
      simp only [Bool.and_eq_true, beq_iff_eq, hpg]
      rintro ⟨h1, _⟩
      exact hne (by injection h1)
    · have hpdb : p ∈ db.drums := place_drum_mem_ne db g2 now hd ho hra hct hq hp hpd
      have hnot := hother p hpdb hpd
      simp only [Bool.and_eq_true, beq_iff_eq]
      rintro ⟨h1, h2⟩
      exact hnot ⟨h1, h2⟩

theorem c10_witness :
    get_drum (place_drum c5State "D001" "O9" "R9" "T9" "Q9" "B1" 4).1 "D001" = some ⟨some "O9", some "R9", some "Q9", some "T9", DrumStatus.IN, some "B1", 4⟩ ∧
    gridStatus (place_drum c5State "D001" "O9" "R9" "T9" "Q9" "B1" 4).1 "A1" = some GridStatus.Occupied ∧
    get_drums_by_grid (place_drum c5State "D001" "O9" "R9" "T9" "Q9" "B1" 4).1 "A1" = [] :=
  c10_replacement_leaves_stale_occupied c5State "D001" "O9" "R9" "T9" "Q9" "A1" "B1" 4
    ⟨some "O1", some "R1", some "10", some "TA", DrumStatus.IN, some "A1", 1⟩
    (by decide) (by decide) (by decide) (by decide) (by decide) (by decide) (by decide)
    (by decide) (by decide) (by decide) (by decide)

theorem insert_drum_of_present {db : DB} {d : String} (o ra ct q : String) (now : Nat)
    (h : db.drums.any (fun p => p.1 == d) = true) :
    insert_drum db d o ra ct q now =
      { db with drums := updateDrumRow db.drums d (fun _ => ⟨some o, some ra, some q, some ct, DrumStatus.OUT, none, now⟩) } := by
  unfold insert_drum
  rw [h]
  rfl

theorem place_drum_snd_true_elim {db : DB} {d o ra ct q g : String} {now : Nat}
    (h : (place_drum db d o ra ct q g now).2 = true) :
    d ≠ "" ∧ o ≠ "" ∧ ra ≠ "" ∧ ct ≠ "" ∧ q ≠ "" := by
  unfold place_drum at h
  by_cases hcond : (d == "" || o == "" || ra == "" || q == "" || ct == "") = true
  · rw [if_pos hcond] at h
    cases h
  · simp only [Bool.or_eq_true, beq_iff_eq, not_or] at hcond
    obtain ⟨⟨⟨⟨hd1, ho1⟩, hra1⟩, hq1⟩, hct1⟩ := hcond
    exact ⟨hd1, ho1, hra1, hct1, hq1⟩

theorem place_drum_fail {db : DB} {d o ra ct q : String} (g : String) (now : Nat)
    (h : ¬(d ≠ "" ∧ o ≠ "" ∧ ra ≠ "" ∧ ct ≠ "" ∧ q ≠ "")) :
    place_drum db d o ra ct q g now = (db, false) := by
  unfold place_drum
  have hcond : (d == "" || o == "" || ra == "" || q == "" || ct == "") = true := by
    by_contra hc
    apply h
    simp only [Bool.or_eq_true, beq_iff_eq, not_or] at hc
    obtain ⟨⟨⟨⟨hd1, ho1⟩, hra1⟩, hq1⟩, hct1⟩ := hc
    exact ⟨hd1, ho1, hra1, hct1, hq1⟩
  rw [if_pos hcond]

theorem update_drum_out_succ_of_snd {db : DB} {d : String} {now : Nat}
    (h : (update_drum_out db d now).2 = true) :
    ∃ r g, get_drum db d = some r ∧ r.CurrentGrid = some g := by
  cases hcase : get_drum db d with
  | none =>
    rw [update_drum_out_fail now (Or.inl hcase)] at h
    cases h
  | some r =>
    cases hg : r.CurrentGrid with
    | none =>
      rw [update_drum_out_fail now (Or.inr ⟨r, hcase, hg⟩)] at h
      cases h
    | some g => exact ⟨r, g, rfl, hg⟩

theorem shift_drum_grid_succ_of_snd {db : DB} {d g2 : String} {now : Nat}
    (h : (shift_drum_grid db d g2 now).2 = true) :
    ∃ r g1, get_drum db d = some r ∧ r.CurrentGrid = some g1 := by
  cases hcase : get_drum db d with
  | none =>
    rw [shift_drum_grid_fail g2 now (Or.inl hcase)] at h
    cases h
  | some r =>
    cases hg : r.CurrentGrid with
    | none =>
      rw [shift_drum_grid_fail g2 now (Or.inr ⟨r, hcase, hg⟩)] at h
      cases h
    | some g1 => exact ⟨r, g1, rfl, hg⟩

theorem update_drum_out_lookup_ne (db : DB) (d : String) (now : Nat) {d2 : String}
    (hne : d2 ≠ d) :
    get_drum (update_drum_out db d now).1 d2 = get_drum db d2 := by
  cases hcase : get_drum db d with
  | none => rw [update_drum_out_fail now (Or.inl hcase)]
  | some r =>
    cases hg : r.CurrentGrid with
    | none => rw [update_drum_out_fail now (Or.inr ⟨r, hcase, hg⟩)]
    | some g =>
      show (update_drum_out db d now).1.drums.lookup d2 = _
      rw [update_drum_out_drums now hcase hg, lookup_updateDrumRow, if_neg hne]
      rfl

theorem shift_drum_grid_lookup_ne (db : DB) (d g2 : String) (now : Nat) {d2 : String}
    (hne : d2 ≠ d) :
    get_drum (shift_drum_grid db d g2 now).1 d2 = get_drum db d2 := by
  cases hcase : get_drum db d with
  | none => rw [shift_drum_grid_fail g2 now (Or.inl hcase)]
  | some r =>
    cases hg : r.CurrentGrid with
    | none => rw [shift_drum_grid_fail g2 now (Or.inr ⟨r, hcase, hg⟩)]
    | some g1 =>
      show (shift_drum_grid db d g2 now).1.drums.lookup d2 = _
      rw [shift_drum_grid_drums g2 now hcase hg, lookup_updateDrumRow, if_neg hne]
      rfl

theorem txnIdsOk_extend {db db2 : DB} {t : Txn}
    (htx : db2.transactions = db.transactions ++ [t])
    (hid : t.TxnID = db.nextTxnId)
    (hnx : db2.nextTxnId = db.nextTxnId + 1)
    (h : txnIdsOk db) : txnIdsOk db2 := by
  obtain ⟨hp, hb⟩ := h
  constructor
  · rw [htx, List.map_append, List.pairwise_append]
    refine ⟨hp, List.pairwise_singleton _ _, ?_⟩
    intro a ha b hb2
    simp only [List.map, List.mem_singleton] at hb2
    obtain ⟨u, hu, rfl⟩ := List.mem_map.mp ha
    rcases hb2 with rfl
    rw [hid]
    exact hb u hu
  · intro u hu
    rw [htx] at hu
    rw [hnx]
    rcases List.mem_append.mp hu with hl | hr
    · exact Nat.lt_succ_of_lt (hb u hl)
    · rcases List.mem_singleton.mp hr with rfl
      rw [hid]
      exact Nat.lt_succ_self _

theorem WF_out (db : DB) (d : String) (now : Nat) (h : WF db) :
    WF (update_drum_out db d now).1 := by
  obtain ⟨hk, hinv, htx⟩ := h
  cases hcase : get_drum db d with
  | none =>
    rw [update_drum_out_fail now (Or.inl hcase)]
    exact ⟨hk, hinv, htx⟩
  | some r =>
    cases hg : r.CurrentGrid with
    | none =>
      rw [update_drum_out_fail now (Or.inr ⟨r, hcase, hg⟩)]
      exact ⟨hk, hinv, htx⟩
    | some g =>
      refine ⟨?_, ?_, ?_⟩
      · unfold keysNodup
        rw [update_drum_out_drums now hcase hg, keys_updateDrumRow]
        exact hk
      · intro p hp
        rw [update_drum_out_drums now hcase hg] at hp
        rcases mem_updateDrumRow hp with ⟨hpin, _⟩ | ⟨v, _, rfl⟩
        · exact hinv p hpin
        · exact ⟨by simp, fun _ => ⟨rfl, rfl, rfl, rfl⟩⟩
      · exact txnIdsOk_extend (update_drum_out_txns now hcase hg) rfl
          (update_drum_out_nextTxnId now hcase hg) htx

theorem WF_shift (db : DB) (d g2 : String) (now : Nat) (h : WF db) :
    WF (shift_drum_grid db d g2 now).1 := by
  obtain ⟨hk, hinv, htx⟩ := h
  cases hcase : get_drum db d with
  | none =>
    rw [shift_drum_grid_fail g2 now (Or.inl hcase)]
    exact ⟨hk, hinv, htx⟩
  | some r =>
    cases hg : r.CurrentGrid with
    | none =>
      rw [shift_drum_grid_fail g2 now (Or.inr ⟨r, hcase, hg⟩)]
      exact ⟨hk, hinv, htx⟩
    | some g1 =>
      have hrmem : (d, r) ∈ db.drums := lookup_eq_some_mem hcase
      have hrin : r.Status = DrumStatus.IN := by
        refine (hinv (d, r) hrmem).1.mp ?_
        rw [hg]
        exact fun hx => Option.noConfusion hx
      refine ⟨?_, ?_, ?_⟩
      · unfold keysNodup
        rw [shift_drum_grid_drums g2 now hcase hg, keys_updateDrumRow]
        exact hk
      · intro p hp
        rw [shift_drum_grid_drums g2 now hcase hg] at hp
        rcases mem_updateDrumRow hp with ⟨hpin, _⟩ | ⟨v, hv, rfl⟩
        · exact hinv p hpin
        · have hlv : get_drum db d = some v := mem_lookup_of_nodup hk hv
          rw [hcase] at hlv
          injection hlv with hveq
          subst hveq
          constructor
          · constructor
            · intro _
              exact hrin
            · intro _
              simp [moveTo]
          · intro hst
            have hst2 : r.Status = DrumStatus.OUT := hst
            rw [hrin] at hst2
            cases hst2
      · exact txnIdsOk_extend (shift_drum_grid_txns g2 now hcase hg) rfl
          (shift_drum_grid_nextTxnId g2 now hcase hg) htx

theorem WF_place (db : DB) (d o ra ct q g : String) (now : Nat) (h : WF db) :
    WF (place_drum db d o ra ct q g now).1 := by
  obtain ⟨hk, hinv, htx⟩ := h
  by_cases hval : d ≠ "" ∧ o ≠ "" ∧ ra ≠ "" ∧ ct ≠ "" ∧ q ≠ ""
  case neg =>
    rw [place_drum_fail g now hval]
    exact ⟨hk, hinv, htx⟩
  case pos =>
    obtain ⟨hd, ho, hra, hct, hq⟩ := hval
    refine ⟨?_, ?_, ?_⟩
    · unfold keysNodup
      rw [place_drum_fst db g now hd ho hra hct hq]
      cases hcase : get_drum db d with
      | none =>
        rw [update_drum_in_eq, insert_drum_of_absent o ra ct q now hcase]
        dsimp only
        rw [keys_updateDrumRow, List.map_append, List.nodup_append]
        refine ⟨hk, List.nodup_singleton _, ?_⟩
        intro a ha hb
        simp only [List.map, List.mem_singleton] at hb
        subst hb
        obtain ⟨p, hp, rfl⟩ := List.mem_map.mp ha
        exact (lookup_eq_none_iff.mp hcase p hp) rfl
      | some v =>
        rw [update_drum_in_eq, update_drum_info_eq]
        dsimp only
        rw [keys_updateDrumRow, keys_updateDrumRow]
        exact hk
    · intro p hp
      by_cases hpd : p.1 = d
      · obtain ⟨hpg, hps⟩ := place_drum_mem_eq db g now hd ho hra hct hq hp hpd
        constructor
        · constructor
          · intro _
            exact hps
          · intro _
            rw [hpg]
            exact fun hx => Option.noConfusion hx
        · intro hst
          rw [hps] at hst
          cases hst
      · exact hinv p (place_drum_mem_ne db g now hd ho hra hct hq hp hpd)
    · exact txnIdsOk_extend (place_drum_txns db g now hd ho hra hct hq) rfl
        (place_drum_nextTxnId db g now hd ho hra hct hq) htx

theorem WF_foldl_out (now : Nat) :
    ∀ (L : List (String × DrumRow)) (s : DB), WF s →
      WF (L.foldl (fun s2 p => (update_drum_out s2 p.1 now).1) s) := by
  intro L
  induction L with
  | nil => exact fun s hs => hs
  | cons p t ih => exact fun s hs => ih _ (WF_out s p.1 now hs)

theorem WF_foldl_shift (g2 : String) (now : Nat) :
    ∀ (L : List (String × DrumRow)) (s : DB), WF s →
      WF (L.foldl (fun s2 p => (shift_drum_grid s2 p.1 g2 now).1) s) := by
  intro L
  induction L with
  | nil => exact fun s hs => hs
  | cons p t ih => exact fun s hs => ih _ (WF_shift s p.1 g2 now hs)

theorem WF_step (db : DB) (op : Op) (now : Nat) (h : WF db) : WF (step db op now) := by
  cases op with
  | place d o ra ct q g => exact WF_place db d o ra ct q g now h
  | remove d => exact WF_out db d now h
  | shift d g2 => exact WF_shift db d g2 now h
  | batchOut g => exact WF_foldl_out now _ db h
  | batchShift g1 g2 => exact WF_foldl_shift g2 now _ db h

theorem WF_runOps : ∀ (ops : List (Op × Nat)) (db : DB), WF db → WF (runOps db ops) := by
  intro ops
  induction ops with
  | nil => exact fun db h => h
  | cons p t ih => exact fun db h => ih _ (WF_step db p.1 p.2 h)

theorem WF_initDB : WF initDB :=
  ⟨by decide, by decide, by decide⟩

/-- C3: starting from the freshly created database, after any sequence of
completed operations (placements, removals, shifts and their batch
variants) every drum row satisfies: `CurrentGrid` is non-null iff
`Status = IN`, and whenever `Status = OUT` the metadata fields `OrderNo`,
`Quantity`, `RA` and `CellType` are all null. -/
theorem c3_drum_row_invariant (ops : List (Op × Nat)) :
    drumInvariant (runOps initDB ops) :=
  (WF_runOps ops initDB WF_initDB).2.1

theorem foldl_out_txns_len (now : Nat) :
    ∀ (L : List (String × DrumRow)) (s : DB),
      (∀ p ∈ L, ∃ r g0, get_drum s p.1 = some r ∧ r.CurrentGrid = some g0) →
      (L.map Prod.fst).Nodup →
      (L.foldl (fun s2 p => (update_drum_out s2 p.1 now).1) s).transactions.length
        = s.transactions.length + L.length := by
  intro L
  induction L with
  | nil =>
    intro s _ _
    simp
  | cons p t ih =>
    intro s hall hnd
    obtain ⟨r, g0, hr, hg⟩ := hall p (List.mem_cons_self _ _)
    simp only [List.foldl_cons]
    have hlen1 : (update_drum_out s p.1 now).1.transactions.length =
        s.transactions.length + 1 := by
      rw [update_drum_out_txns now hr hg, List.length_append]
      rfl
    simp only [List.map, List.nodup_cons] at hnd
    have htail : ∀ q ∈ t, ∃ r2 g2, get_drum (update_drum_out s p.1 now).1 q.1 = some r2 ∧
        r2.CurrentGrid = some g2 := by
      intro q hq
      obtain ⟨r2, g2, hr2, hg2⟩ := hall q (List.mem_cons_of_mem _ hq)
      have hqne : q.1 ≠ p.1 := by
        intro he
        exact hnd.1 (he ▸ List.mem_map_of_mem Prod.fst hq)
      refine ⟨r2, g2, ?_, hg2⟩
      rw [update_drum_out_lookup_ne s p.1 now hqne]
      exact hr2
    rw [ih _ htail hnd.2, hlen1, List.length_cons]
    omega

theorem foldl_shift_txns_len (g2 : String) (now : Nat) :
    ∀ (L : List (String × DrumRow)) (s : DB),
      (∀ p ∈ L, ∃ r g0, get_drum s p.1 = some r ∧ r.CurrentGrid = some g0) →
      (L.map Prod.fst).Nodup →
      (L.foldl (fun s2 p => (shift_drum_grid s2 p.1 g2 now).1) s).transactions.length
        = s.transactions.length + L.length := by
  intro L
  induction L with
  | nil =>
    intro s _ _
    simp
  | cons p t ih =>
    intro s hall hnd
    obtain ⟨r, g0, hr, hg⟩ := hall p (List.mem_cons_self _ _)
    simp only [List.foldl_cons]
    have hlen1 : (shift_drum_grid s p.1 g2 now).1.transactions.length =
        s.transactions.length + 1 := by
      rw [shift_drum_grid_txns g2 now hr hg, List.length_append]
      rfl
    simp only [List.map, List.nodup_cons] at hnd
    have htail : ∀ q ∈ t, ∃ r2 g3, get_drum (shift_drum_grid s p.1 g2 now).1 q.1 = some r2 ∧
        r2.CurrentGrid = some g3 := by
      intro q hq
      obtain ⟨r2, g3, hr2, hg3⟩ := hall q (List.mem_cons_of_mem _ hq)
      have hqne : q.1 ≠ p.1 := by
        intro he
        exact hnd.1 (he ▸ List.mem_map_of_mem Prod.fst hq)
      refine ⟨r2, g3, ?_, hg3⟩
      rw [shift_drum_grid_lookup_ne s p.1 g2 now hqne]
      exact hr2
    rw [ih _ htail hnd.2, hlen1, List.length_cons]
    omega

theorem batch_out_txns_len (db : DB) (g : String) (now : Nat) (hk : keysNodup db) :
    (batch_out_drums db g now).transactions.length =
      db.transactions.length + (get_drums_by_grid db g).length := by
  unfold batch_out_drums
  apply foldl_out_txns_len
  · intro p hp
    obtain ⟨hpin, hpg, _⟩ := mem_get_drums_by_grid.mp hp
    refine ⟨p.2, g, ?_, hpg⟩
    have hmem : (p.1, p.2) ∈ db.drums := by
      rw [Prod.mk.eta]
      exact hpin
    exact mem_lookup_of_nodup hk hmem
  · exact List.Nodup.sublist (List.Sublist.map Prod.fst (List.filter_sublist db.drums)) hk

theorem batch_shift_txns_len (db : DB) (g1 g2 : String) (now : Nat) (hk : keysNodup db) :
    (batch_shift_drums db g1 g2 now).transactions.length =
      db.transactions.length + (get_drums_by_grid db g1).length := by
  unfold batch_shift_drums
  apply foldl_shift_txns_len
  · intro p hp
    obtain ⟨hpin, hpg, _⟩ := mem_get_drums_by_grid.mp hp
    refine ⟨p.2, g1, ?_, hpg⟩
    have hmem : (p.1, p.2) ∈ db.drums := by
      rw [Prod.mk.eta]
      exact hpin
    exact mem_lookup_of_nodup hk hmem
  · exact List.Nodup.sublist (List.Sublist.map Prod.fst (List.filter_sublist db.drums)) hk

/-- C8: in every database reachable from the initial one by a sequence of
completed operations, the `TxnID` column is strictly increasing down the
transactions table and contains no duplicate (ids are never reused);
every successful `place_drum`, `update_drum_out` and `shift_drum_grid`
appends exactly one transaction row, and each batch operation appends
exactly one transaction per drum on the affected grid. -/
theorem c8_transaction_log (ops : List (Op × Nat)) :
    List.Pairwise (· < ·) ((runOps initDB ops).transactions.map Txn.TxnID) ∧
    ((runOps initDB ops).transactions.map Txn.TxnID).Nodup ∧
    (∀ d o ra ct q g now, (place_drum (runOps initDB ops) d o ra ct q g now).2 = true →
      (place_drum (runOps initDB ops) d o ra ct q g now).1.transactions.length =
        (runOps initDB ops).transactions.length + 1) ∧
    (∀ d now, (update_drum_out (runOps initDB ops) d now).2 = true →
      (update_drum_out (runOps initDB ops) d now).1.transactions.length =
        (runOps initDB ops).transactions.length + 1) ∧
    (∀ d g2 now, (shift_drum_grid (runOps initDB ops) d g2 now).2 = true →
      (shift_drum_grid (runOps initDB ops) d g2 now).1.transactions.length =
        (runOps initDB ops).transactions.length + 1) ∧
    (∀ g now, (batch_out_drums (runOps initDB ops) g now).transactions.length =
      (runOps initDB ops).transactions.length + (get_drums_by_grid (runOps initDB ops) g).length) ∧
    (∀ g1 g2 now, (batch_shift_drums (runOps initDB ops) g1 g2 now).transactions.length =
      (runOps initDB ops).transactions.length + (get_drums_by_grid (runOps initDB ops) g1).length) := by
  obtain ⟨hk, _, htx⟩ := WF_runOps ops initDB WF_initDB
  refine ⟨htx.1, List.Pairwise.imp (fun hab => ne_of_lt hab) htx.1, ?_, ?_, ?_, ?_, ?_⟩
  · intro d o ra ct q g now hsnd
    obtain ⟨hd, ho, hra, hct, hq⟩ := place_drum_snd_true_elim hsnd
    rw [place_drum_txns _ g now hd ho hra hct hq, List.length_append]
    rfl
  · intro d now hsnd
    obtain ⟨r, g, hr, hg⟩ := update_drum_out_succ_of_snd hsnd
    rw [update_drum_out_txns now hr hg, List.length_append]
    rfl
  · intro d g2 now hsnd
    obtain ⟨r, g1, hr, hg⟩ := shift_drum_grid_succ_of_snd hsnd
    rw [shift_drum_grid_txns g2 now hr hg, List.length_append]
    rfl
  · intro g now
    exact batch_out_txns_len _ g now hk
  · intro g1 g2 now
    exact batch_shift_txns_len _ g1 g2 now hk

theorem c8_witness :
    (batch_out_drums c2Placed "C1" 3).transactions.length =
      c2Placed.transactions.length + (get_drums_by_grid c2Placed "C1").length ∧
    (update_drum_out c2Placed "D002" 3).1.transactions.length =
      c2Placed.transactions.length + 1 ∧
    List.Pairwise (· < ·) (c2Placed.transactions.map Txn.TxnID) := by
  have h := c8_transaction_log
    [(Op.place "D002" "O2" "R2" "T2" "Q2" "C1", 1),
     (Op.place "D003" "O3" "R3" "T3" "Q3" "C1", 2)]
  exact ⟨h.2.2.2.2.2.1 "C1" 3, h.2.2.2.1 "D002" 3 (by decide), h.1⟩

/-- C9: the order-number search matches the current drums table by
case-insensitive substring on `OrderNo`; when no current drum matches it
falls back to `drum_history` by the same substring match, returning the
historical rows under the distinct `fromHistory` constructor (the marker
separating them from live rows); when neither table matches, the search
reports `noRecords` — an ordinary result, not an error. -/
theorem c9_search_fallback (db : DB) (q : String) :
    ((∃ p ∈ db.drums, likeContains q p.2.OrderNo = true) →
      search_by_order db q =
        SearchResult.live (db.drums.filter (fun p => likeContains q p.2.OrderNo))) ∧
    ((∀ p ∈ db.drums, likeContains q p.2.OrderNo = false) →
      (∃ h ∈ db.drum_history, likeContains q h.OrderNo = true) →
      search_by_order db q =
        SearchResult.fromHistory (db.drum_history.filter (fun h => likeContains q h.OrderNo))) ∧
    ((∀ p ∈ db.drums, likeContains q p.2.OrderNo = false) →
      (∀ h ∈ db.drum_history, likeContains q h.OrderNo = false) →
      search_by_order db q = SearchResult.noRecords) ∧
    (∀ rows rows2, SearchResult.live rows ≠ SearchResult.fromHistory rows2) := by
  have hdrums_nil : (∀ p ∈ db.drums, likeContains q p.2.OrderNo = false) →
      db.drums.filter (fun p => likeContains q p.2.OrderNo) = [] := by
    intro hall
    rw [List.filter_eq_nil_iff]
    intro p hp
    rw [hall p hp]
    exact fun hx => Bool.noConfusion hx
  have hhist_nil : (∀ h ∈ db.drum_history, likeContains q h.OrderNo = false) →
      db.drum_history.filter (fun h => likeContains q h.OrderNo) = [] := by
    intro hall
    rw [List.filter_eq_nil_iff]
    intro h hh
    rw [hall h hh]
    exact fun hx => Bool.noConfusion hx
  refine ⟨?_, ?_, ?_, ?_⟩
  · rintro ⟨p, hp, hm⟩
    have hmemf : p ∈ db.drums.filter (fun p => likeContains q p.2.OrderNo) :=
      List.mem_filter.mpr ⟨hp, hm⟩
    unfold search_by_order
    cases hI : (db.drums.filter (fun p => likeContains q p.2.OrderNo)).isEmpty with
    | true =>
      rw [List.isEmpty_iff] at hI
      rw [hI] at hmemf
      cases hmemf
    | false => simp [hI]
  · intro hall ⟨h, hh, hm⟩
    have hmemf : h ∈ db.drum_history.filter (fun h => likeContains q h.OrderNo) :=
      List.mem_filter.mpr ⟨hh, hm⟩
    unfold search_by_order
    rw [hdrums_nil hall]
    cases hI : (db.drum_history.filter (fun h => likeContains q h.OrderNo)).isEmpty with
    | true =>
      rw [List.isEmpty_iff] at hI
      rw [hI] at hmemf
      cases hmemf
    | false => simp [hI]
  · intro hall1 hall2
    unfold search_by_order
    rw [hdrums_nil hall1, hhist_nil hall2]
    rfl
  · intro rows rows2 hcontra
    cases hcontra

theorem c9_witness :
    search_by_order c2Placed "o2" =
      SearchResult.live (c2Placed.drums.filter (fun p => likeContains "o2" p.2.OrderNo)) ∧
    search_by_order c2Final "o2" =
      SearchResult.fromHistory (c2Final.drum_history.filter (fun h => likeContains "o2" h.OrderNo)) ∧
    search_by_order c2Placed "zzz" = SearchResult.noRecords :=
  ⟨(c9_search_fallback c2Placed "o2").1 (by decide),
   (c9_search_fallback c2Final "o2").2.1 (by decide) (by decide),
   (c9_search_fallback c2Placed "zzz").2.2.1 (by decide) (by decide)⟩

theorem c6_amended_witness :
    (shift_drum_grid c6State "D001" "B2" 7).2 = true ∧
    (get_drum (shift_drum_grid c6State "D001" "B2" 7).1 "D001").map DrumRow.CurrentGrid = some (some "B2") ∧
    gridStatus (shift_drum_grid c6State "D001" "B2" 7).1 "B2" = some GridStatus.Occupied ∧
    (shift_drum_grid c6State "D001" "B2" 7).1.transactions = c6State.transactions ++ [⟨c6State.nextTxnId, "D001", "B2", TxnStatus.SHIFT, 7⟩] :=
  c6_shift_succeeds_on_occupied_destination c6State "D001" "B2" 7
    ⟨some "O1", some "R1", some "10", some "TA", DrumStatus.IN, some "A1", 1⟩ "A1"
    (by decide) (by decide) (by decide)

end DrumInv
